import Mathlib

/-!
Verification of the SmartDFM geometric analysis core (core/dfm_checks/ and
core/dfm_engine.py) against its natural-language specification.

The Python code operates on numpy float arrays; this development embeds it
shallowly over the real numbers: every numpy arithmetic operation is modelled
by the corresponding exact real operation, arrays become lists, and the
floating-point infinity sentinel used for "no thickness estimate" becomes
an Option (none = the infinite sentinel).  Trigonometric functions
(np.arccos, np.cos, np.deg2rad, np.degrees) are modelled by their Mathlib
real counterparts.
-/

noncomputable section

/-- Check status, modelling the status strings "OK" / "WARNING" / "UNKNOWN"
used by every check in the source. -/
inductive Status where
  | OK
  | WARNING
  | UNKNOWN
deriving DecidableEq, Repr

/-- A 3-vector of reals, modelling one row of an (N, 3) float array. -/
abbrev Vec3 : Type := ℝ × ℝ × ℝ

/-- A triangle as a triple of vertex indices, modelling one row of an
(M, 3) int array of face indices. -/
abbrev Face : Type := Nat × Nat × Nat

def dot3 (a b : Vec3) : ℝ := a.1 * b.1 + a.2.1 * b.2.1 + a.2.2 * b.2.2

def add3 (a b : Vec3) : Vec3 := (a.1 + b.1, a.2.1 + b.2.1, a.2.2 + b.2.2)

def sub3 (a b : Vec3) : Vec3 := (a.1 - b.1, a.2.1 - b.2.1, a.2.2 - b.2.2)

def smul3 (c : ℝ) (v : Vec3) : Vec3 := (c * v.1, c * v.2.1, c * v.2.2)

def div3 (v : Vec3) (c : ℝ) : Vec3 := (v.1 / c, v.2.1 / c, v.2.2 / c)

/-- Cross product, modelling np.cross on rows. -/
def cross3 (a b : Vec3) : Vec3 :=
  (a.2.1 * b.2.2 - a.2.2 * b.2.1,
   a.2.2 * b.1 - a.1 * b.2.2,
   a.1 * b.2.1 - a.2.1 * b.1)

/-- Euclidean norm, modelling np.linalg.norm of one row. -/
def norm3 (v : Vec3) : ℝ := Real.sqrt (dot3 v v)

/-- Indexing a vertex array, modelling vertices[i] (indices produced by the
pipeline are in range; the default is never reached on valid input). -/
def vget (vs : List Vec3) (i : Nat) : Vec3 := vs.getD i (0, 0, 0)

/-- Clamp to the interval from -1 to 1, modelling np.clip(x, -1.0, 1.0). -/
def clamp (x : ℝ) : ℝ := min 1 (max (-1) x)

/-- Degree-to-radian conversion, modelling np.deg2rad. -/
def toRad (d : ℝ) : ℝ := d * Real.pi / 180

/-- Radian-to-degree conversion, modelling np.degrees. -/
def toDeg (r : ℝ) : ℝ := r * 180 / Real.pi

theorem dot3_self_nonneg (v : Vec3) : 0 ≤ dot3 v v := by
  obtain ⟨x, y, z⟩ := v
  simp only [dot3]
  nlinarith [mul_self_nonneg x, mul_self_nonneg y, mul_self_nonneg z]

theorem norm3_nonneg (v : Vec3) : 0 ≤ norm3 v := Real.sqrt_nonneg _

theorem norm3_eq_zero_iff (v : Vec3) : norm3 v = 0 ↔ v = ((0 : ℝ), (0 : ℝ), (0 : ℝ)) := by
  obtain ⟨x, y, z⟩ := v
  simp only [norm3, dot3, Prod.mk.injEq]
  constructor
  · intro h
    have hle := Real.sqrt_eq_zero'.mp h
    have hx : x * x = 0 := le_antisymm (by nlinarith [mul_self_nonneg y, mul_self_nonneg z]) (mul_self_nonneg x)
    have hy : y * y = 0 := le_antisymm (by nlinarith [mul_self_nonneg x, mul_self_nonneg z]) (mul_self_nonneg y)
    have hz : z * z = 0 := le_antisymm (by nlinarith [mul_self_nonneg x, mul_self_nonneg y]) (mul_self_nonneg z)
    exact ⟨mul_self_eq_zero.mp hx, mul_self_eq_zero.mp hy, mul_self_eq_zero.mp hz⟩
  · rintro ⟨rfl, rfl, rfl⟩
    simp [Real.sqrt_eq_zero']

theorem norm3_smul (c : ℝ) (hc : 0 ≤ c) (v : Vec3) : norm3 (smul3 c v) = c * norm3 v := by
  obtain ⟨x, y, z⟩ := v
  simp only [norm3, smul3, dot3]
  rw [show c * x * (c * x) + c * y * (c * y) + c * z * (c * z) =
        (c * c) * (x * x + y * y + z * z) by ring,
      Real.sqrt_mul (mul_self_nonneg c), Real.sqrt_mul_self hc]

theorem div3_one (v : Vec3) : div3 v 1 = v := by
  obtain ⟨x, y, z⟩ := v
  simp [div3]

theorem div3_eq_smul3 (v : Vec3) (c : ℝ) : div3 v c = smul3 c⁻¹ v := by
  obtain ⟨x, y, z⟩ := v
  simp [div3, smul3, div_eq_inv_mul]

/-- Safe normalization, modelling the shared source pattern
lengths-then-safe-then-divide: safe = np.where(lengths == 0, 1.0, lengths);
result = vec / safe.  A zero vector stays zero instead of producing NaN. -/
def normalizeGuard (v : Vec3) : Vec3 :=
  div3 v (if norm3 v = 0 then 1 else norm3 v)

theorem normalizeGuard_unit_or_zero (v : Vec3) :
    norm3 (normalizeGuard v) = 1 ∨ normalizeGuard v = ((0 : ℝ), 0, 0) := by
  unfold normalizeGuard
  by_cases h : norm3 v = 0
  · right
    rw [if_pos h, div3_one]
    exact (norm3_eq_zero_iff v).mp h
  · left
    rw [if_neg h, div3_eq_smul3,
        norm3_smul _ (inv_nonneg.mpr (norm3_nonneg v)) v,
        inv_mul_cancel₀ h]

theorem getD_map_lt {α β : Type} (f : α → β) (l : List α) (i : Nat)
    (h : i < l.length) (d : β) (d' : α) :
    (l.map f).getD i d = f (l.getD i d') := by
  induction l generalizing i with
  | nil => simp at h
  | cons a t ih =>
    cases i with
    | zero => simp [List.getD]
    | succ n =>
      simp only [List.map_cons, List.getD_cons_succ]
      exact ih n (by simpa using h)

/-- Squared Euclidean distance between two points.  Ordering vertices by
cKDTree's Euclidean query distance is the same as ordering them by squared
distance, which avoids an irrelevant square root in the model. -/
def sqDist (a b : Vec3) : ℝ := dot3 (sub3 a b) (sub3 a b)

/-- Model of tree.query(origin, k) for origin = vertex i: the indices of the
k nearest vertices, nearest first.  Insertion sort on the distance key is
stable, so ties are broken by original index; downstream only the selected
set of neighbours matters. -/
def kNearest (vs : List Vec3) (i k : Nat) : List Nat :=
  (List.insertionSort
    (fun a b => sqDist (vget vs a) (vget vs i) ≤ sqDist (vget vs b) (vget vs i))
    (List.range vs.length)).take k

/-- One iteration of the per-vertex thickness loop in
check_local_wall_thickness: starting from local_min = np.inf (none), visit
neighbour j, skip j = i, project (v_j - v_i) onto the vertex normal, and keep
the smallest strictly positive projection seen so far. -/
def thickStep (vs : List Vec3) (vn : Vec3) (i : Nat) (acc : Option ℝ) (j : Nat) : Option ℝ :=
  if j = i then acc
  else
    let proj := dot3 (sub3 (vget vs j) (vget vs i)) vn
    match acc with
    | none => if 0 < proj then some proj else none
    | some m => if 0 < proj ∧ proj < m then some proj else some m

/-- Per-vertex local thickness estimate: none both for an all-zero vertex
normal (np.allclose(n, 0), modelled as exact zero) and when no neighbour
yields a strictly positive projection (the np.inf sentinel). -/
def vertexThickness (vs : List Vec3) (vn : Vec3) (i k : Nat) : Option ℝ :=
  if vn = ((0 : ℝ), 0, 0) then none
  else (kNearest vs i k).foldl (thickStep vs vn i) none

/-- The per-vertex thickness array filled by the main loop of
check_local_wall_thickness, with k = min(32, num_vertices). -/
def local_thickness_array (vertices vertex_normals : List Vec3) : List (Option ℝ) :=
  (List.range vertices.length).map
    (fun i => vertexThickness vertices (vget vertex_normals i) i (min 32 vertices.length))

/-- Result record of the local wall thickness check (status, message metrics
and the per-vertex thickness array; the message string is not modelled). -/
structure ThicknessResult where
  status : Status
  min_thickness : ℝ
  num_thin_vertices : Nat
  threshold : ℝ
  per_vertex_thickness : List (Option ℝ)

/-- Smallest component of a 3-vector, modelling extents.min(). -/
def minExtent (e : Vec3) : ℝ := min e.1 (min e.2.1 e.2.2)

/-- Model of check_local_wall_thickness: build the per-vertex thickness
array; if any entry is finite report the minimum finite value and count the
finite entries strictly below the threshold, otherwise fall back to the
smallest bounding-box extent with a zero thin count. -/
def check_local_wall_thickness (vertices : List Vec3) (faces : List Face)
    (vertex_normals : List Vec3) (extents : Vec3) (min_thickness : ℝ) :
    ThicknessResult :=
  match (local_thickness_array vertices vertex_normals).filterMap id with
  | x :: xs =>
      { status :=
          if 0 < (local_thickness_array vertices vertex_normals).countP
              (fun o => o.elim false (fun v => decide (v < min_thickness))) then
            .WARNING else .OK
        min_thickness := xs.foldl min x
        num_thin_vertices :=
          (local_thickness_array vertices vertex_normals).countP
            (fun o => o.elim false (fun v => decide (v < min_thickness)))
        threshold := min_thickness
        per_vertex_thickness := local_thickness_array vertices vertex_normals }
  | [] =>
      { status := if minExtent extents < min_thickness then .WARNING else .OK
        min_thickness := minExtent extents
        num_thin_vertices := 0
        threshold := min_thickness
        per_vertex_thickness := local_thickness_array vertices vertex_normals }

/-- Spec-side description of the candidate projections at vertex i: the
strictly positive projections of (v_j - v_i) onto the vertex normal over the
selected neighbours j different from i. -/
def posProjections (vs : List Vec3) (vn : Vec3) (i : Nat) (neigh : List Nat) : List ℝ :=
  ((neigh.filter (fun j => decide (j ≠ i))).map
      (fun j => dot3 (sub3 (vget vs j) (vget vs i)) vn)).filter
    (fun x => decide (0 < x))

/-- Running minimum over a list of reals starting from no value. -/
def optMinFold (l : List ℝ) : Option ℝ :=
  l.foldl (fun acc x => match acc with | none => some x | some m => some (min m x)) none

theorem thickStep_of_ne (vs : List Vec3) (vn : Vec3) (i : Nat) (acc : Option ℝ)
    (j : Nat) (hj : ¬ j = i) :
    thickStep vs vn i acc j =
      (if 0 < dot3 (sub3 (vget vs j) (vget vs i)) vn then
        (match acc with
         | none => some (dot3 (sub3 (vget vs j) (vget vs i)) vn)
         | some m => some (min m (dot3 (sub3 (vget vs j) (vget vs i)) vn)))
       else acc) := by
  unfold thickStep
  rw [if_neg hj]
  cases acc with
  | none =>
    by_cases hpos : 0 < dot3 (sub3 (vget vs j) (vget vs i)) vn
    · simp [hpos]
    · simp [hpos]
  | some m =>
    by_cases hpos : 0 < dot3 (sub3 (vget vs j) (vget vs i)) vn
    · by_cases hlt : dot3 (sub3 (vget vs j) (vget vs i)) vn < m
      · simp only [if_pos (And.intro hpos hlt), if_pos hpos]
        rw [min_eq_right hlt.le]
      · simp only [if_pos hpos]
        rw [if_neg (by tauto), min_eq_left (le_of_not_lt hlt)]
    · simp only [if_neg hpos]
      rw [if_neg (by tauto)]

theorem thick_fold_eq_optMinFold (vs : List Vec3) (vn : Vec3) (i : Nat)
    (l : List Nat) (acc : Option ℝ) :
    l.foldl (thickStep vs vn i) acc =
      (posProjections vs vn i l).foldl
        (fun acc x => match acc with | none => some x | some m => some (min m x)) acc := by
  induction l generalizing acc with
  | nil => simp [posProjections]
  | cons j t ih =>
    simp only [posProjections] at ih ⊢
    by_cases hj : j = i
    · rw [List.foldl_cons, List.filter_cons_of_neg (by simp [hj]),
        show thickStep vs vn i acc j = acc by simp [thickStep, hj]]
      exact ih acc
    · rw [List.foldl_cons, List.filter_cons_of_pos (by simp [hj]), List.map_cons]
      by_cases hpos : 0 < dot3 (sub3 (vget vs j) (vget vs i)) vn
      · rw [List.filter_cons_of_pos (by simpa using hpos), List.foldl_cons,
          thickStep_of_ne vs vn i acc j hj, if_pos hpos]
        exact ih _
      · rw [List.filter_cons_of_neg (by simpa using hpos),
          thickStep_of_ne vs vn i acc j hj, if_neg hpos]
        exact ih acc

theorem minFold_some_spec (l : List ℝ) (a b : ℝ)
    (h : l.foldl (fun acc x => match acc with | none => some x | some m => some (min m x))
        (some a) = some b) :
    b ≤ a ∧ (b = a ∨ b ∈ l) ∧ ∀ x ∈ l, b ≤ x := by
  induction l generalizing a with
  | nil =>
    simp only [List.foldl_nil, Option.some.injEq] at h
    subst h
    exact ⟨le_refl _, Or.inl rfl, by simp⟩
  | cons x t ih =>
    simp only [List.foldl_cons] at h
    obtain ⟨h1, h2, h3⟩ := ih (min a x) h
    refine ⟨h1.trans (min_le_left _ _), ?_, ?_⟩
    · rcases h2 with h2 | h2
      · rcases min_choice a x with hm | hm
        · exact Or.inl (h2.trans hm)
        · exact Or.inr (by simp [h2.trans hm])
      · exact Or.inr (by simp [h2])
    · intro y hy
      rcases List.mem_cons.mp hy with rfl | hy
      · exact h1.trans (min_le_right _ _)
      · exact h3 y hy

theorem minFold_isSome (l : List ℝ) (a : ℝ) :
    (l.foldl (fun acc x => match acc with | none => some x | some m => some (min m x))
        (some a)).isSome = true := by
  induction l generalizing a with
  | nil => rfl
  | cons x t ih => simpa using ih (min a x)

theorem optMinFold_eq_none_iff (l : List ℝ) : optMinFold l = none ↔ l = [] := by
  cases l with
  | nil => simp [optMinFold]
  | cons x t =>
    simp only [optMinFold, List.foldl_cons]
    constructor
    · intro h
      have := minFold_isSome t x
      rw [h] at this
      simp at this
    · intro h
      simp at h

theorem optMinFold_some_spec (l : List ℝ) (m : ℝ) (h : optMinFold l = some m) :
    m ∈ l ∧ ∀ x ∈ l, m ≤ x := by
  cases l with
  | nil => simp [optMinFold] at h
  | cons x t =>
    simp only [optMinFold, List.foldl_cons] at h
    obtain ⟨h1, h2, h3⟩ := minFold_some_spec t x m h
    refine ⟨?_, ?_⟩
    · rcases h2 with h2 | h2
      · simp [h2]
      · simp [h2]
    · intro y hy
      rcases List.mem_cons.mp hy with rfl | hy
      · exact h1
      · exact h3 y hy

theorem getD_range_map {β : Type} (f : Nat → β) (n i : Nat) (h : i < n) (d : β) :
    ((List.range n).map f).getD i d = f i := by
  rw [getD_map_lt f _ i (by simpa using h) d 0]
  congr 1
  simp [List.getD, List.getElem?_range h]

/-- Claim C3: the per-vertex thickness entry is the infinite sentinel when
the vertex normal is zero; otherwise it is the smallest strictly positive
projection of (v_j - v_i) onto the normal over the k = min(32, V) nearest
neighbours j of v_i with j distinct from i, or the sentinel when no
neighbour gives a positive projection. -/
theorem local_thickness_entry_spec (vertices vertex_normals : List Vec3)
    (i : Nat) (hi : i < vertices.length) :
    (vget vertex_normals i = ((0 : ℝ), 0, 0) →
      (local_thickness_array vertices vertex_normals).getD i none = none) ∧
    (vget vertex_normals i ≠ ((0 : ℝ), 0, 0) →
      (((local_thickness_array vertices vertex_normals).getD i none = none ↔
         posProjections vertices (vget vertex_normals i) i
           (kNearest vertices i (min 32 vertices.length)) = []) ∧
       ∀ m, (local_thickness_array vertices vertex_normals).getD i none = some m →
         m ∈ posProjections vertices (vget vertex_normals i) i
               (kNearest vertices i (min 32 vertices.length)) ∧
         ∀ x ∈ posProjections vertices (vget vertex_normals i) i
                 (kNearest vertices i (min 32 vertices.length)), m ≤ x)) := by
  have hentry : (local_thickness_array vertices vertex_normals).getD i none =
      vertexThickness vertices (vget vertex_normals i) i (min 32 vertices.length) := by
    unfold local_thickness_array
    exact getD_range_map _ _ i hi none
  constructor
  · intro hz
    rw [hentry]
    unfold vertexThickness
    rw [if_pos hz]
  · intro hz
    rw [hentry]
    unfold vertexThickness
    rw [if_neg hz, thick_fold_eq_optMinFold]
    constructor
    · exact optMinFold_eq_none_iff _
    · intro m hm
      exact optMinFold_some_spec _ m hm

theorem countP_elim_filterMap (l : List (Option ℝ)) (p : ℝ → Bool) :
    l.countP (fun o => o.elim false p) = (l.filterMap id).countP p := by
  induction l with
  | nil => rfl
  | cons o t ih =>
    cases o with
    | none =>
      rw [List.countP_cons, List.filterMap_cons]
      show t.countP _ + 0 = _
      simpa using ih
    | some v =>
      rw [List.countP_cons, List.filterMap_cons]
      show t.countP _ + (if p v = true then 1 else 0) = List.countP p (v :: t.filterMap id)
      rw [List.countP_cons, ih]

theorem ite_status_warning_iff (c : Prop) [Decidable c] :
    ((if c then Status.WARNING else Status.OK) = Status.WARNING ↔ c) ∧
    ((if c then Status.WARNING else Status.OK) = Status.OK ↔ ¬ c) := by
  by_cases h : c <;> simp [h]

theorem foldl_min_mem (x : ℝ) (xs : List ℝ) : xs.foldl min x ∈ x :: xs := by
  induction xs generalizing x with
  | nil => simp
  | cons y t ih =>
    simp only [List.foldl_cons]
    rcases List.mem_cons.mp (ih (min x y)) with h | h
    · rcases min_choice x y with hm | hm
      · rw [h, hm]; exact List.mem_cons_self _ _
      · rw [h, hm]; exact List.mem_cons_of_mem _ (List.mem_cons_self _ _)
    · exact List.mem_cons_of_mem _ (List.mem_cons_of_mem _ h)

theorem foldl_min_le (x : ℝ) (xs : List ℝ) : ∀ y ∈ x :: xs, xs.foldl min x ≤ y := by
  induction xs generalizing x with
  | nil =>
    intro y hy
    simp only [List.mem_cons, List.not_mem_nil, or_false] at hy
    simp [hy]
  | cons z t ih =>
    intro y hy
    simp only [List.foldl_cons]
    rcases List.mem_cons.mp hy with rfl | hy'
    · exact (ih (min y z) _ (List.mem_cons_self _ _)).trans (min_le_left _ _)
    · rcases List.mem_cons.mp hy' with rfl | hy2
      · exact (ih (min x y) _ (List.mem_cons_self _ _)).trans (min_le_right _ _)
      · exact ih (min x z) y (List.mem_cons_of_mem _ hy2)

/-- Claim C4: if some vertex has a finite estimate, the check reports the
minimum finite estimate, counts the finite estimates strictly below the
threshold and returns WARNING iff that count is positive; with no finite
estimate it falls back to the smallest bounding-box extent, reports zero thin
vertices, warns iff the extent is below the threshold, and the per-vertex
array is entirely the infinite sentinel. -/
theorem local_thickness_aggregation_spec (vertices : List Vec3) (faces : List Face)
    (vertex_normals : List Vec3) (extents : Vec3) (min_thickness : ℝ)
    (r : ThicknessResult)
    (hr : r = check_local_wall_thickness vertices faces vertex_normals extents min_thickness)
    (finite : List ℝ)
    (hf : finite = (local_thickness_array vertices vertex_normals).filterMap id) :
    r.threshold = min_thickness ∧
    r.per_vertex_thickness = local_thickness_array vertices vertex_normals ∧
    (finite ≠ [] →
      r.min_thickness ∈ finite ∧
      (∀ x ∈ finite, r.min_thickness ≤ x) ∧
      r.num_thin_vertices = finite.countP (fun x => decide (x < min_thickness)) ∧
      (r.status = .WARNING ↔ 0 < r.num_thin_vertices) ∧
      (r.status = .OK ↔ r.num_thin_vertices = 0)) ∧
    (finite = [] →
      r.min_thickness = minExtent extents ∧
      r.num_thin_vertices = 0 ∧
      (r.status = .WARNING ↔ minExtent extents < min_thickness) ∧
      (r.status = .OK ↔ ¬ minExtent extents < min_thickness) ∧
      ∀ o ∈ r.per_vertex_thickness, o = none) := by
  subst hr
  subst hf
  unfold check_local_wall_thickness
  rcases hft : (local_thickness_array vertices vertex_normals).filterMap id with _ | ⟨x, xs⟩
  · refine ⟨rfl, rfl, by simp, fun _ => ⟨rfl, rfl, ?_, ?_, ?_⟩⟩
    · exact (ite_status_warning_iff _).1
    · exact (ite_status_warning_iff _).2
    · intro o ho
      exact (List.filterMap_eq_nil_iff.mp hft) o ho
  · refine ⟨rfl, rfl, fun _ => ⟨?_, ?_, ?_, ?_, ?_⟩, by simp⟩
    · exact foldl_min_mem x xs
    · exact foldl_min_le x xs
    · rw [countP_elim_filterMap, hft]
    · exact (ite_status_warning_iff _).1
    · show _ ↔ (local_thickness_array vertices vertex_normals).countP
          (fun o => o.elim false fun v => decide (v < min_thickness)) = 0
      exact (ite_status_warning_iff _).2.trans (by omega)

/-- Claim C9: the thin-vertex count is monotone non-decreasing in the
threshold, all other inputs equal. -/
theorem thin_count_monotone (vertices : List Vec3) (faces : List Face)
    (vertex_normals : List Vec3) (extents : Vec3) (t1 t2 : ℝ) (h : t1 ≤ t2) :
    (check_local_wall_thickness vertices faces vertex_normals extents t1).num_thin_vertices ≤
      (check_local_wall_thickness vertices faces vertex_normals extents t2).num_thin_vertices := by
  unfold check_local_wall_thickness
  rcases hft : (local_thickness_array vertices vertex_normals).filterMap id with _ | ⟨x, xs⟩
  · exact le_refl 0
  · exact List.countP_mono_left (by
      intro o ho
      cases o with
      | none => simp [Option.elim]
      | some v =>
        simp only [Option.elim, decide_eq_true_eq]
        intro hv
        exact lt_of_lt_of_le hv h)

/-- Concrete two-vertex mesh used by several witnesses: vertex 1 sits a
distance 5 above vertex 0 along the shared normal +Z. -/
def demoVerts : List Vec3 := [(0, 0, 0), (0, 0, 5)]

/-- Vertex normals for the demo mesh, both +Z. -/
def demoNormals : List Vec3 := [(0, 0, 1), (0, 0, 1)]

theorem demo_lta_eval : local_thickness_array demoVerts demoNormals = [some 5, none] := by
  have h2 : List.range 2 = [0, 1] := rfl
  norm_num [local_thickness_array, demoVerts, demoNormals, h2, vertexThickness,
    kNearest, thickStep, List.insertionSort, List.orderedInsert, sqDist, sub3,
    dot3, vget, Prod.ext_iff]

/-- Witness for C3 at the demo mesh, vertex 0. -/
theorem local_thickness_entry_spec_witness :
    0 < demoVerts.length ∧ vget demoNormals 0 ≠ ((0 : ℝ), 0, 0) ∧
      (((local_thickness_array demoVerts demoNormals).getD 0 none = none ↔
         posProjections demoVerts (vget demoNormals 0) 0
           (kNearest demoVerts 0 (min 32 demoVerts.length)) = []) ∧
       ∀ m, (local_thickness_array demoVerts demoNormals).getD 0 none = some m →
         m ∈ posProjections demoVerts (vget demoNormals 0) 0
               (kNearest demoVerts 0 (min 32 demoVerts.length)) ∧
         ∀ x ∈ posProjections demoVerts (vget demoNormals 0) 0
                 (kNearest demoVerts 0 (min 32 demoVerts.length)), m ≤ x) := by
  have hz : vget demoNormals 0 ≠ ((0 : ℝ), 0, 0) := by
    norm_num [vget, demoNormals, Prod.ext_iff]
  exact ⟨by norm_num [demoVerts], hz,
    (local_thickness_entry_spec demoVerts demoNormals 0 (by norm_num [demoVerts])).2 hz⟩

/-- Witness for C4 at the demo mesh (the finite-estimate branch). -/
theorem local_thickness_aggregation_spec_witness :
    (local_thickness_array demoVerts demoNormals).filterMap id ≠ [] ∧
      ((check_local_wall_thickness demoVerts [] demoNormals ((0 : ℝ), 0, 5) (4/5)).min_thickness ∈
          (local_thickness_array demoVerts demoNormals).filterMap id ∧
        (∀ x ∈ (local_thickness_array demoVerts demoNormals).filterMap id,
          (check_local_wall_thickness demoVerts [] demoNormals ((0 : ℝ), 0, 5) (4/5)).min_thickness ≤ x) ∧
        (check_local_wall_thickness demoVerts [] demoNormals ((0 : ℝ), 0, 5) (4/5)).num_thin_vertices =
          ((local_thickness_array demoVerts demoNormals).filterMap id).countP
            (fun x => decide (x < (4/5 : ℝ))) ∧
        ((check_local_wall_thickness demoVerts [] demoNormals ((0 : ℝ), 0, 5) (4/5)).status = .WARNING ↔
          0 < (check_local_wall_thickness demoVerts [] demoNormals ((0 : ℝ), 0, 5) (4/5)).num_thin_vertices) ∧
        ((check_local_wall_thickness demoVerts [] demoNormals ((0 : ℝ), 0, 5) (4/5)).status = .OK ↔
          (check_local_wall_thickness demoVerts [] demoNormals ((0 : ℝ), 0, 5) (4/5)).num_thin_vertices = 0)) := by
  have hne : (local_thickness_array demoVerts demoNormals).filterMap id ≠ [] := by
    rw [demo_lta_eval]; simp
  exact ⟨hne,
    (local_thickness_aggregation_spec demoVerts [] demoNormals ((0 : ℝ), 0, 5) (4/5) _ rfl _ rfl).2.2.1 hne⟩

/-- Witness for C9 at the demo mesh with thresholds 1 and 2. -/
theorem thin_count_monotone_witness :
    (1 : ℝ) ≤ 2 ∧
      (check_local_wall_thickness demoVerts [] demoNormals ((0 : ℝ), 0, 5) 1).num_thin_vertices ≤
        (check_local_wall_thickness demoVerts [] demoNormals ((0 : ℝ), 0, 5) 2).num_thin_vertices :=
  ⟨by norm_num, thin_count_monotone demoVerts [] demoNormals ((0 : ℝ), 0, 5) 1 2 (by norm_num)⟩

/-- Ascending sorted copy of a list of reals, modelling np.sort. -/
def sortedReals (l : List ℝ) : List ℝ := List.insertionSort (fun a b => a ≤ b) l

/-- Model of np.median on a nonempty 1-D array: the middle element of the
sorted values when the length is odd, the average of the two middle elements
when it is even. -/
def npMedian (l : List ℝ) : ℝ :=
  if (sortedReals l).length % 2 = 1 then
    (sortedReals l).getD ((sortedReals l).length / 2) 0
  else
    ((sortedReals l).getD ((sortedReals l).length / 2 - 1) 0 +
      (sortedReals l).getD ((sortedReals l).length / 2) 0) / 2

/-- Result record of the rib/boss over-thickness check.  Fields that the
source sets to Python None in the no-data branch are Options. -/
structure RibBossResult where
  status : Status
  base_wall_thickness : Option ℝ
  max_thickness : Option ℝ
  factor : ℝ
  threshold : Option ℝ
  num_over_thick_vertices : Nat
  bad_vertex_mask : List Bool

/-- Nominal wall thickness used by check_rib_boss_thickness: the caller's
value if supplied, otherwise the median of the finite samples. -/
def ribBossBase (base : Option ℝ) (tvalid : List ℝ) : ℝ :=
  match base with
  | none => npMedian tvalid
  | some b => b

/-- Elementwise over-thickness mask: finite_mask AND (t above threshold). -/
def ribBossMask (t : List (Option ℝ)) (threshold : ℝ) : List Bool :=
  t.map (fun o => o.elim false (fun v => decide (threshold < v)))

/-- Model of check_rib_boss_thickness: with no finite sample return UNKNOWN
with an all-false mask; otherwise estimate the nominal wall (median unless
caller-supplied), flag finite entries strictly above nominal * factor, and
return WARNING iff any vertex is flagged. -/
def check_rib_boss_thickness (per_vertex_thickness : List (Option ℝ))
    (base_wall_thickness : Option ℝ) (factor : ℝ) : RibBossResult :=
  match per_vertex_thickness.filterMap id with
  | [] =>
      { status := .UNKNOWN
        base_wall_thickness := none
        max_thickness := none
        factor := factor
        threshold := none
        num_over_thick_vertices := 0
        bad_vertex_mask := List.replicate per_vertex_thickness.length false }
  | x :: xs =>
      { status :=
          if 0 < (ribBossMask per_vertex_thickness
              (ribBossBase base_wall_thickness (x :: xs) * factor)).countP (fun b => b) then
            .WARNING else .OK
        base_wall_thickness := some (ribBossBase base_wall_thickness (x :: xs))
        max_thickness := some (xs.foldl max x)
        factor := factor
        threshold := some (ribBossBase base_wall_thickness (x :: xs) * factor)
        num_over_thick_vertices :=
          (ribBossMask per_vertex_thickness
            (ribBossBase base_wall_thickness (x :: xs) * factor)).countP (fun b => b)
        bad_vertex_mask :=
          ribBossMask per_vertex_thickness
            (ribBossBase base_wall_thickness (x :: xs) * factor) }

theorem ribBossMask_getD (t : List (Option ℝ)) (thr : ℝ) (i : Nat) :
    (ribBossMask t thr).getD i false = true ↔
      ∃ v, t.getD i none = some v ∧ thr < v := by
  by_cases hi : i < t.length
  · rw [ribBossMask, getD_map_lt _ _ _ hi _ none]
    cases hto : t.getD i none with
    | none => simp [Option.elim]
    | some v => simp [Option.elim]
  · have hlen : t.length ≤ i := le_of_not_lt hi
    have h1 : (ribBossMask t thr).getD i false = false :=
      List.getD_eq_default _ _ (by simpa [ribBossMask] using hlen)
    have h2 : t.getD i none = none := List.getD_eq_default _ _ hlen
    rw [h1, h2]
    simp

/-- Claim C5: with no finite thickness entry the rib/boss check returns
UNKNOWN with zero flagged vertices and an all-false mask; otherwise, with no
caller-supplied base wall, the nominal wall is the median of the finite
entries, a vertex is flagged iff its entry is finite and strictly exceeds
nominal * factor, and the status is WARNING iff at least one vertex is
flagged; in particular the array [1, 1, 2] at factor 1.5 yields threshold
1.5, exactly the 2.0 vertex flagged, and status WARNING. -/
theorem rib_boss_spec (t : List (Option ℝ)) (factor : ℝ) (r : RibBossResult)
    (hr : r = check_rib_boss_thickness t none factor)
    (finite : List ℝ) (hf : finite = t.filterMap id) :
    (finite = [] →
      r.status = .UNKNOWN ∧ r.num_over_thick_vertices = 0 ∧
      r.bad_vertex_mask = List.replicate t.length false ∧
      ∀ b ∈ r.bad_vertex_mask, b = false) ∧
    (finite ≠ [] →
      r.base_wall_thickness = some (npMedian finite) ∧
      r.threshold = some (npMedian finite * factor) ∧
      (∀ i, r.bad_vertex_mask.getD i false = true ↔
        ∃ v, t.getD i none = some v ∧ npMedian finite * factor < v) ∧
      r.num_over_thick_vertices =
        t.countP (fun o => o.elim false (fun v => decide (npMedian finite * factor < v))) ∧
      (r.status = .WARNING ↔ 0 < r.num_over_thick_vertices) ∧
      (r.status = .OK ↔ r.num_over_thick_vertices = 0)) ∧
    (check_rib_boss_thickness [some 1, some 1, some 2] none (3/2)).threshold = some (3/2) ∧
    (check_rib_boss_thickness [some 1, some 1, some 2] none (3/2)).bad_vertex_mask =
      [false, false, true] ∧
    (check_rib_boss_thickness [some 1, some 1, some 2] none (3/2)).status = .WARNING ∧
    (check_rib_boss_thickness [some 1, some 1, some 2] none (3/2)).num_over_thick_vertices = 1 := by
  have hscenario :
      (check_rib_boss_thickness [some 1, some 1, some 2] none (3/2)).threshold = some (3/2) ∧
      (check_rib_boss_thickness [some 1, some 1, some 2] none (3/2)).bad_vertex_mask =
        [false, false, true] ∧
      (check_rib_boss_thickness [some 1, some 1, some 2] none (3/2)).status = .WARNING ∧
      (check_rib_boss_thickness [some 1, some 1, some 2] none (3/2)).num_over_thick_vertices = 1 := by
    norm_num [check_rib_boss_thickness, List.filterMap_cons, ribBossBase, ribBossMask,
      npMedian, sortedReals, List.insertionSort, List.orderedInsert, List.countP_cons,
      Option.elim]
  subst hr
  subst hf
  unfold check_rib_boss_thickness
  rcases hft : t.filterMap id with _ | ⟨x, xs⟩
  · refine ⟨fun _ => ⟨rfl, rfl, rfl, ?_⟩, by simp, hscenario⟩
    intro b hb
    exact List.eq_of_mem_replicate hb
  · refine ⟨by simp, fun _ => ⟨rfl, rfl, ?_, ?_, ?_, ?_⟩, hscenario⟩
    · intro i
      exact ribBossMask_getD t _ i
    · show (ribBossMask t (ribBossBase none (x :: xs) * factor)).countP (fun b => b) =
        t.countP (fun o => o.elim false (fun v => decide (npMedian (x :: xs) * factor < v)))
      rw [ribBossMask, List.countP_map]
      rfl
    · exact (ite_status_warning_iff _).1
    · show _ ↔ (ribBossMask t (ribBossBase none (x :: xs) * factor)).countP (fun b => b) = 0
      exact (ite_status_warning_iff _).2.trans (by omega)

/-- Witness for C5: the finite branch hypotheses hold at the scenario-F
array. -/
theorem rib_boss_spec_witness :
    ([some (1 : ℝ), some 1, some 2].filterMap id ≠ []) ∧
      ((check_rib_boss_thickness [some 1, some 1, some 2] none (3/2)).base_wall_thickness =
          some (npMedian ([some (1 : ℝ), some 1, some 2].filterMap id)) ∧
        (check_rib_boss_thickness [some 1, some 1, some 2] none (3/2)).threshold =
          some (npMedian ([some (1 : ℝ), some 1, some 2].filterMap id) * (3/2)) ∧
        (∀ i, (check_rib_boss_thickness [some 1, some 1, some 2] none (3/2)).bad_vertex_mask.getD i false = true ↔
          ∃ v, [some (1 : ℝ), some 1, some 2].getD i none = some v ∧
            npMedian ([some (1 : ℝ), some 1, some 2].filterMap id) * (3/2) < v) ∧
        (check_rib_boss_thickness [some 1, some 1, some 2] none (3/2)).num_over_thick_vertices =
          [some (1 : ℝ), some 1, some 2].countP
            (fun o => o.elim false (fun v =>
              decide (npMedian ([some (1 : ℝ), some 1, some 2].filterMap id) * (3/2) < v))) ∧
        ((check_rib_boss_thickness [some 1, some 1, some 2] none (3/2)).status = .WARNING ↔
          0 < (check_rib_boss_thickness [some 1, some 1, some 2] none (3/2)).num_over_thick_vertices) ∧
        ((check_rib_boss_thickness [some 1, some 1, some 2] none (3/2)).status = .OK ↔
          (check_rib_boss_thickness [some 1, some 1, some 2] none (3/2)).num_over_thick_vertices = 0)) := by
  have hne : ([some (1 : ℝ), some 1, some 2].filterMap id ≠ []) := by simp
  exact ⟨hne, (rib_boss_spec [some 1, some 1, some 2] (3/2) _ rfl _ rfl).2.1 hne⟩

/-- Canonical undirected edge, modelling tuple(sorted((a, b))). -/
def canonEdge (a b : Nat) : Nat × Nat := if a ≤ b then (a, b) else (b, a)

/-- The three canonicalized edges of one triangle, in the iteration order of
the edge-building loop of check_sharp_corners. -/
def faceEdges (f : Face) : List (Nat × Nat) :=
  [canonEdge f.1 f.2.1, canonEdge f.2.1 f.2.2, canonEdge f.2.2 f.1]

/-- Flattened (edge, face-index) reference stream, in the iteration order of
the nested loops over enumerate(faces) and the three edges of each face. -/
def edgeRefs (faces : List Face) : List ((Nat × Nat) × Nat) :=
  (faces.enum).flatMap (fun p => (faceEdges p.2).map (fun e => (e, p.1)))

/-- Model of edge_to_faces.setdefault(e, []).append(f_idx) on an
insertion-ordered association list (Python dicts preserve insertion order). -/
def upsert {κ ν : Type} [DecidableEq κ] (m : List (κ × List ν)) (k : κ) (v : ν) :
    List (κ × List ν) :=
  match m with
  | [] => [(k, [v])]
  | (k', l) :: rest => if k' = k then (k', l ++ [v]) :: rest else (k', l) :: upsert rest k v

/-- Association map built by repeated setdefault-append over a pair stream. -/
def buildMap {κ ν : Type} [DecidableEq κ] (ps : List (κ × ν)) : List (κ × List ν) :=
  ps.foldl (fun m p => upsert m p.1 p.2) []

/-- First-occurrence deduplication, matching Python dict key order. -/
def dedupF {κ : Type} [DecidableEq κ] : List κ → List κ
  | [] => []
  | a :: l => a :: (dedupF l).filter (fun b => decide (b ≠ a))

/-- The edge to incident-face-list dict built by check_sharp_corners. -/
def buildEdgeFaceMap (faces : List Face) : List ((Nat × Nat) × List Nat) :=
  buildMap (edgeRefs faces)

/-- Spec-side incident-face list of an undirected edge: the indices of the
faces referencing it, in iteration order and with multiplicity. -/
def incFaces (faces : List Face) (e : Nat × Nat) : List Nat :=
  ((edgeRefs faces).filter (fun q => decide (q.1 = e))).map (fun q => q.2)

theorem dedupF_mem {κ : Type} [DecidableEq κ] (l : List κ) (a : κ) :
    a ∈ dedupF l ↔ a ∈ l := by
  induction l with
  | nil => simp [dedupF]
  | cons b t ih =>
    simp only [dedupF, List.mem_cons, List.mem_filter, decide_eq_true_eq]
    constructor
    · rintro (rfl | ⟨ha, _⟩)
      · exact Or.inl rfl
      · exact Or.inr (ih.mp ha)
    · rintro (rfl | ha)
      · exact Or.inl rfl
      · by_cases hab : a = b
        · exact Or.inl hab
        · exact Or.inr ⟨ih.mpr ha, hab⟩

theorem dedupF_nodup {κ : Type} [DecidableEq κ] (l : List κ) : (dedupF l).Nodup := by
  induction l with
  | nil => simp [dedupF]
  | cons b t ih =>
    simp only [dedupF]
    refine List.nodup_cons.mpr ⟨?_, List.Nodup.filter _ ih⟩
    intro hmem
    have h2 := (List.mem_filter.mp hmem).2
    simp at h2

theorem dedupF_append_singleton {κ : Type} [DecidableEq κ] (l : List κ) (a : κ) :
    dedupF (l ++ [a]) = if a ∈ l then dedupF l else dedupF l ++ [a] := by
  induction l with
  | nil => simp [dedupF]
  | cons b t ih =>
    have hcons : ∀ (x : κ) (l' : List κ),
        dedupF (x :: l') = x :: (dedupF l').filter (fun y => decide (y ≠ x)) :=
      fun _ _ => rfl
    by_cases hal : a ∈ t
    · rw [List.cons_append, hcons, ih, if_pos hal, if_pos (List.mem_cons_of_mem b hal), hcons]
    · by_cases hab : a = b
      · subst hab
        rw [List.cons_append, hcons, ih, if_neg hal, if_pos (List.mem_cons_self a t),
          List.filter_append, hcons]
        simp
      · rw [List.cons_append, hcons, ih, if_neg hal, if_neg (by simp [hab, hal]),
          List.filter_append, hcons]
        simp [hab]

theorem upsert_not_mem {κ ν : Type} [DecidableEq κ] (m : List (κ × List ν)) (k : κ) (v : ν)
    (h : k ∉ m.map Prod.fst) : upsert m k v = m ++ [(k, [v])] := by
  induction m with
  | nil => rfl
  | cons p rest ih =>
    obtain ⟨k', l⟩ := p
    simp only [List.map_cons, List.mem_cons, not_or] at h
    simp only [upsert]
    rw [if_neg (fun he => h.1 (he.symm)), List.cons_append]
    rw [ih h.2]

theorem upsert_map_mem {κ ν : Type} [DecidableEq κ] (D : List κ) (fn : κ → List ν)
    (k : κ) (v : ν) (hD : D.Nodup) (hk : k ∈ D) :
    upsert (D.map (fun x => (x, fn x))) k v =
      D.map (fun x => (x, if x = k then fn x ++ [v] else fn x)) := by
  induction D with
  | nil => simp at hk
  | cons b t ih =>
    simp only [List.map_cons, upsert]
    by_cases hbk : b = k
    · rw [if_pos hbk, if_pos hbk]
      congr 1
      apply List.map_congr_left
      intro x hx
      have hxb : x ≠ k := by
        intro he
        exact (List.nodup_cons.mp hD).1 (by rw [← he] at hbk; rw [← hbk] at hx; exact hx)
      rw [if_neg hxb]
    · rw [if_neg hbk, if_neg hbk]
      congr 1
      refine ih (List.nodup_cons.mp hD).2 ?_
      rcases List.mem_cons.mp hk with he | ht
      · exact absurd he.symm hbk
      · exact ht

theorem buildMap_eq {κ ν : Type} [DecidableEq κ] (ps : List (κ × ν)) :
    buildMap ps = (dedupF (ps.map Prod.fst)).map
      (fun k => (k, (ps.filter (fun q => decide (q.1 = k))).map Prod.snd)) := by
  induction ps using List.reverseRecOn with
  | nil => rfl
  | append_singleton l p ih =>
    have hstep : buildMap (l ++ [p]) = upsert (buildMap l) p.1 p.2 := by
      simp [buildMap, List.foldl_append]
    rw [hstep, ih, List.map_append]
    simp only [List.map_cons, List.map_nil]
    rw [dedupF_append_singleton]
    by_cases hmem : p.1 ∈ l.map Prod.fst
    · rw [if_pos hmem]
      rw [upsert_map_mem _ _ _ _ (dedupF_nodup _) ((dedupF_mem _ _).mpr hmem)]
      apply List.map_congr_left
      intro x hx
      rw [List.filter_append]
      by_cases hxk : x = p.1
      · subst hxk
        simp
      · rw [if_neg hxk]
        have hone : List.filter (fun q => decide (q.1 = x)) [p] = [] := by
          rw [List.filter_eq_nil_iff]
          intro q hq
          simp only [List.mem_singleton] at hq
          subst hq
          simp only [decide_eq_true_eq]
          intro he
          exact hxk he.symm
        rw [hone, List.append_nil]
    · rw [if_neg hmem]
      rw [upsert_not_mem _ _ _ (by
        rw [List.map_map]
        intro hc
        exact hmem ((dedupF_mem _ _).mp (by simpa using hc)))]
      rw [List.map_append]
      congr 1
      · apply List.map_congr_left
        intro x hx
        have hxk : x ≠ p.1 := by
          intro he
          exact hmem ((dedupF_mem _ _).mp (he ▸ hx))
        rw [List.filter_append]
        have hone : List.filter (fun q => decide (q.1 = x)) [p] = [] := by
          rw [List.filter_eq_nil_iff]
          intro q hq
          simp only [List.mem_singleton] at hq
          subst hq
          simp only [decide_eq_true_eq]
          intro he
          exact hxk he.symm
        rw [hone, List.append_nil]
      · simp only [List.map_cons, List.map_nil]
        have hfl : List.filter (fun q => decide (q.1 = p.1)) l = [] := by
          rw [List.filter_eq_nil_iff]
          intro q hq
          simp only [decide_eq_true_eq]
          intro he
          exact hmem (he ▸ List.mem_map_of_mem Prod.fst hq)
        rw [List.filter_append, hfl, List.nil_append]
        simp

theorem buildEdgeFaceMap_eq (faces : List Face) :
    buildEdgeFaceMap faces = (dedupF ((edgeRefs faces).map Prod.fst)).map
      (fun e => (e, incFaces faces e)) := by
  rw [buildEdgeFaceMap, buildMap_eq]
  rfl

/-- Per-vertex boolean mask built by setting positions of a zero mask, the
pattern used by every check to mark offending vertices. -/
def markIndices (n : Nat) (idxs : List Nat) : List Bool :=
  idxs.foldl (fun m i => m.set i true) (List.replicate n false)

theorem getD_set_true (m : List Bool) (i v : Nat) :
    (m.set i true).getD v false = true ↔ ((v = i ∧ v < m.length) ∨ m.getD v false = true) := by
  simp only [List.getD, List.get?_eq_getElem?]
  rw [List.getElem?_set]
  by_cases hvi : i = v
  · subst hvi
    by_cases hlen : i < m.length
    · simp [hlen]
    · have hv : m[i]? = none := List.getElem?_eq_none (le_of_not_lt hlen)
      simp [hlen, hv]
  · rw [if_neg hvi]
    constructor
    · intro h
      exact Or.inr h
    · rintro (⟨he, _⟩ | h)
      · exact absurd he.symm hvi
      · exact h

theorem foldl_set_getD (idxs : List Nat) (m : List Bool) (v : Nat) :
    (idxs.foldl (fun m i => m.set i true) m).getD v false = true ↔
      m.getD v false = true ∨ (v ∈ idxs ∧ v < m.length) := by
  induction idxs generalizing m with
  | nil => simp
  | cons i t ih =>
    simp only [List.foldl_cons]
    rw [ih, List.length_set, getD_set_true]
    constructor
    · rintro ((⟨rfl, hlt⟩ | h) | ⟨hmem, hlt⟩)
      · exact Or.inr ⟨List.mem_cons_self _ _, hlt⟩
      · exact Or.inl h
      · exact Or.inr ⟨List.mem_cons_of_mem _ hmem, hlt⟩
    · rintro (h | ⟨hmem, hlt⟩)
      · exact Or.inl (Or.inr h)
      · rcases List.mem_cons.mp hmem with rfl | hm
        · exact Or.inl (Or.inl ⟨rfl, hlt⟩)
        · exact Or.inr ⟨hm, hlt⟩

theorem markIndices_getD (n : Nat) (idxs : List Nat) (v : Nat) :
    (markIndices n idxs).getD v false = true ↔ v ∈ idxs ∧ v < n := by
  rw [markIndices, foldl_set_getD]
  have hrep : (List.replicate n false).getD v false = false := by
    simp only [List.getD, List.getElem?_replicate]
    by_cases h : v < n <;> simp [h]
  rw [hrep]
  simp

/-- Result record of the sharp corner check. -/
structure SharpResult where
  status : Status
  num_sharp_edges : Nat
  angle_threshold_deg : ℝ
  max_sharp_angle_deg : ℝ
  corner_vertex_mask : List Bool

/-- Dihedral angle in degrees between two face normals:
degrees(arccos(clip(dot(n1, n2), -1, 1))). -/
def dihedralDeg (face_normals : List Vec3) (f1 f2 : Nat) : ℝ :=
  toDeg (Real.arccos (clamp (dot3 (vget face_normals f1) (vget face_normals f2))))

/-- One iteration of the sharp-edge loop: skip edges without exactly two
incident faces, keep the edge and its dihedral angle when the angle strictly
exceeds the threshold. -/
def sharpItem (face_normals : List Vec3) (θ : ℝ) (p : (Nat × Nat) × List Nat) :
    Option ((Nat × Nat) × ℝ) :=
  match p.2 with
  | [f1, f2] =>
      if θ < dihedralDeg face_normals f1 f2 then some (p.1, dihedralDeg face_normals f1 f2)
      else none
  | _ => none

/-- The sharp_edges list (paired with edge_angles) of check_sharp_corners. -/
def sharpList (faces : List Face) (face_normals : List Vec3) (θ : ℝ) :
    List ((Nat × Nat) × ℝ) :=
  (buildEdgeFaceMap faces).filterMap (sharpItem face_normals θ)

/-- Model of check_sharp_corners: build the edge adjacency dict, keep
interior edges whose dihedral angle strictly exceeds the threshold, mark both
endpoints of every sharp edge, and warn iff any sharp edge exists. -/
def check_sharp_corners (faces : List Face) (face_normals : List Vec3)
    (num_vertices : Nat) (angle_threshold_deg : ℝ) : SharpResult :=
  { status :=
      if 0 < (sharpList faces face_normals angle_threshold_deg).length then .WARNING else .OK
    num_sharp_edges := (sharpList faces face_normals angle_threshold_deg).length
    angle_threshold_deg := angle_threshold_deg
    max_sharp_angle_deg :=
      match (sharpList faces face_normals angle_threshold_deg).map (fun s => s.2) with
      | [] => 0
      | x :: xs => xs.foldl max x
    corner_vertex_mask :=
      markIndices num_vertices
        ((sharpList faces face_normals angle_threshold_deg).flatMap
          (fun s => [s.1.1, s.1.2])) }

/-- Spec-side sharpness of an undirected edge: referenced by exactly two
faces, and the dihedral angle of those two faces strictly exceeds the
threshold. -/
def sharpEdgeSpec (faces : List Face) (face_normals : List Vec3) (θ : ℝ)
    (e : Nat × Nat) : Prop :=
  (incFaces faces e).length = 2 ∧
    θ < dihedralDeg face_normals ((incFaces faces e).getD 0 0) ((incFaces faces e).getD 1 0)

instance sharpEdgeSpecDecidable (faces : List Face) (face_normals : List Vec3) (θ : ℝ)
    (e : Nat × Nat) : Decidable (sharpEdgeSpec faces face_normals θ e) := by
  unfold sharpEdgeSpec
  infer_instance

theorem sharpItem_eq_some_iff (face_normals : List Vec3) (θ : ℝ) (faces : List Face)
    (e : Nat × Nat) (s : (Nat × Nat) × ℝ) :
    sharpItem face_normals θ (e, incFaces faces e) = some s ↔
      sharpEdgeSpec faces face_normals θ e ∧
        s = (e, dihedralDeg face_normals ((incFaces faces e).getD 0 0)
              ((incFaces faces e).getD 1 0)) := by
  unfold sharpItem sharpEdgeSpec
  rcases hl : incFaces faces e with _ | ⟨f1, rest⟩
  · simp
  rcases rest with _ | ⟨f2, rest2⟩
  · simp
  rcases rest2 with _ | ⟨f3, rest3⟩
  · simp only [List.getD_cons_zero, List.getD_cons_succ]
    by_cases hθ : θ < dihedralDeg face_normals f1 f2
    · simp [hθ, eq_comm]
    · simp [hθ]
  · simp

theorem sharpItem_isSome (face_normals : List Vec3) (θ : ℝ) (faces : List Face)
    (e : Nat × Nat) :
    (sharpItem face_normals θ (e, incFaces faces e)).isSome =
      decide (sharpEdgeSpec faces face_normals θ e) := by
  rcases hs : sharpItem face_normals θ (e, incFaces faces e) with _ | s
  · have h2 : ¬ sharpEdgeSpec faces face_normals θ e := by
      intro hspec
      obtain ⟨f1, f2, hl⟩ := List.length_eq_two.mp hspec.1
      have := (sharpItem_eq_some_iff face_normals θ faces e
        (e, dihedralDeg face_normals ((incFaces faces e).getD 0 0)
          ((incFaces faces e).getD 1 0))).mpr ⟨hspec, rfl⟩
      rw [hs] at this
      exact Option.noConfusion this
    simp [h2]
  · have h2 := (sharpItem_eq_some_iff face_normals θ faces e s).mp hs
    simp [h2.1]

theorem mem_sharpList_iff (faces : List Face) (face_normals : List Vec3) (θ : ℝ)
    (s : (Nat × Nat) × ℝ) :
    s ∈ sharpList faces face_normals θ ↔
      ∃ e, e ∈ (edgeRefs faces).map Prod.fst ∧ sharpEdgeSpec faces face_normals θ e ∧
        s = (e, dihedralDeg face_normals ((incFaces faces e).getD 0 0)
              ((incFaces faces e).getD 1 0)) := by
  rw [sharpList, buildEdgeFaceMap_eq, List.filterMap_map, List.mem_filterMap]
  constructor
  · rintro ⟨e, he, hse⟩
    have h2 := (sharpItem_eq_some_iff face_normals θ faces e s).mp hse
    exact ⟨e, (dedupF_mem _ _).mp he, h2.1, h2.2⟩
  · rintro ⟨e, he, hspec, hs⟩
    exact ⟨e, (dedupF_mem _ _).mpr he,
      (sharpItem_eq_some_iff face_normals θ faces e s).mpr ⟨hspec, hs⟩⟩

theorem toDeg_pi_div_two : toDeg (Real.pi / 2) = 90 := by
  show Real.pi / 2 * 180 / Real.pi = 90
  rw [div_eq_iff Real.pi_ne_zero]
  ring

theorem clamp_zero : clamp 0 = 0 := by
  norm_num [clamp]

theorem scenarioC_map :
    buildEdgeFaceMap [((0 : Nat), 1, 2), (0, 1, 3)] =
      [((0, 1), [0, 1]), ((1, 2), [0]), ((0, 2), [0]), ((1, 3), [1]), ((0, 3), [1])] := rfl

theorem scenarioC_dihedral :
    dihedralDeg [((0 : ℝ), 0, 1), ((0 : ℝ), -1, 0)] 0 1 = 90 := by
  unfold dihedralDeg
  have hdot : dot3 (vget [((0 : ℝ), 0, 1), ((0 : ℝ), -1, 0)] 0)
      (vget [((0 : ℝ), 0, 1), ((0 : ℝ), -1, 0)] 1) = 0 := by
    norm_num [vget, dot3]
  rw [hdot, clamp_zero, Real.arccos_zero, toDeg_pi_div_two]

theorem scenarioC_sharpList :
    sharpList [((0 : Nat), 1, 2), (0, 1, 3)] [((0 : ℝ), 0, 1), ((0 : ℝ), -1, 0)] 60 =
      [((0, 1), 90)] := by
  have h1 : sharpItem [((0 : ℝ), 0, 1), ((0 : ℝ), -1, 0)] 60 ((0, 1), [0, 1]) =
      some ((0, 1), 90) := by
    unfold sharpItem
    simp only []
    rw [scenarioC_dihedral, if_pos (by norm_num : (60 : ℝ) < 90)]
  have h2 : ∀ (e : Nat × Nat) (f : Nat),
      sharpItem [((0 : ℝ), 0, 1), ((0 : ℝ), -1, 0)] 60 (e, [f]) = none := fun _ _ => rfl
  rw [sharpList, scenarioC_map]
  simp [List.filterMap_cons, h1, h2]

/-- Claim C6: the Corner Detector counts exactly the undirected edges
referenced by exactly two faces whose dihedral angle
arccos(clamp(dot(n1, n2))) in degrees strictly exceeds the threshold, marks
both endpoints of every sharp edge, returns WARNING iff the sharp count is
positive; and two triangles sharing an edge with dihedral angle 90 degrees at
threshold 60 yield exactly one sharp edge and status WARNING. -/
theorem sharp_corners_spec (faces : List Face) (face_normals : List Vec3)
    (num_vertices : Nat) (θ : ℝ) (r : SharpResult)
    (hr : r = check_sharp_corners faces face_normals num_vertices θ) :
    r.num_sharp_edges = (dedupF ((edgeRefs faces).map Prod.fst)).countP
        (fun e => decide (sharpEdgeSpec faces face_normals θ e)) ∧
    (∀ v, r.corner_vertex_mask.getD v false = true ↔
      v < num_vertices ∧ ∃ e, e ∈ (edgeRefs faces).map Prod.fst ∧
        sharpEdgeSpec faces face_normals θ e ∧ (v = e.1 ∨ v = e.2)) ∧
    (r.status = .WARNING ↔ 0 < r.num_sharp_edges) ∧
    (r.status = .OK ↔ r.num_sharp_edges = 0) ∧
    (check_sharp_corners [((0 : Nat), 1, 2), (0, 1, 3)]
      [((0 : ℝ), 0, 1), ((0 : ℝ), -1, 0)] 4 60).num_sharp_edges = 1 ∧
    (check_sharp_corners [((0 : Nat), 1, 2), (0, 1, 3)]
      [((0 : ℝ), 0, 1), ((0 : ℝ), -1, 0)] 4 60).status = .WARNING := by
  subst hr
  have hlen : (sharpList faces face_normals θ).length =
      (dedupF ((edgeRefs faces).map Prod.fst)).countP
        (fun e => decide (sharpEdgeSpec faces face_normals θ e)) := by
    rw [sharpList, buildEdgeFaceMap_eq, List.filterMap_map, List.length_filterMap_eq_countP]
    apply List.countP_congr
    intro e he
    simp only [Function.comp]
    rw [sharpItem_isSome]
  refine ⟨hlen, ?_, ?_, ?_, ?_, ?_⟩
  · intro v
    show (markIndices num_vertices _).getD v false = true ↔ _
    rw [markIndices_getD]
    constructor
    · rintro ⟨hmem, hv⟩
      rw [List.mem_flatMap] at hmem
      obtain ⟨s, hs, hvs⟩ := hmem
      obtain ⟨e, hemem, hspec, hse⟩ := (mem_sharpList_iff _ _ _ _).mp hs
      refine ⟨hv, e, hemem, hspec, ?_⟩
      subst hse
      simpa using hvs
    · rintro ⟨hv, e, hemem, hspec, hve⟩
      refine ⟨?_, hv⟩
      rw [List.mem_flatMap]
      refine ⟨(e, dihedralDeg face_normals ((incFaces faces e).getD 0 0)
          ((incFaces faces e).getD 1 0)),
        (mem_sharpList_iff _ _ _ _).mpr ⟨e, hemem, hspec, rfl⟩, ?_⟩
      simpa using hve
  · exact (ite_status_warning_iff _).1
  · show _ ↔ (sharpList faces face_normals θ).length = 0
    exact (ite_status_warning_iff _).2.trans (by omega)
  · show (sharpList [((0 : Nat), 1, 2), (0, 1, 3)]
      [((0 : ℝ), 0, 1), ((0 : ℝ), -1, 0)] 60).length = 1
    rw [scenarioC_sharpList]
    rfl
  · show (if 0 < (sharpList [((0 : Nat), 1, 2), (0, 1, 3)]
        [((0 : ℝ), 0, 1), ((0 : ℝ), -1, 0)] 60).length then Status.WARNING else Status.OK) =
      Status.WARNING
    rw [scenarioC_sharpList]
    norm_num

/-- Witness for C6 at the two-triangle scenario mesh. -/
theorem sharp_corners_spec_witness :
    check_sharp_corners [((0 : Nat), 1, 2), (0, 1, 3)]
        [((0 : ℝ), 0, 1), ((0 : ℝ), -1, 0)] 4 60 =
      check_sharp_corners [((0 : Nat), 1, 2), (0, 1, 3)]
        [((0 : ℝ), 0, 1), ((0 : ℝ), -1, 0)] 4 60 ∧
    ((check_sharp_corners [((0 : Nat), 1, 2), (0, 1, 3)]
        [((0 : ℝ), 0, 1), ((0 : ℝ), -1, 0)] 4 60).status = .WARNING ↔
      0 < (check_sharp_corners [((0 : Nat), 1, 2), (0, 1, 3)]
        [((0 : ℝ), 0, 1), ((0 : ℝ), -1, 0)] 4 60).num_sharp_edges) :=
  ⟨rfl, (sharp_corners_spec [((0 : Nat), 1, 2), (0, 1, 3)]
    [((0 : ℝ), 0, 1), ((0 : ℝ), -1, 0)] 4 60 _ rfl).2.2.1⟩

theorem dot3_div3 (a p : Vec3) (c : ℝ) : dot3 a (div3 p c) = dot3 a p / c := by
  obtain ⟨ax, ay, az⟩ := a
  obtain ⟨px, py, pz⟩ := p
  simp only [dot3, div3]
  ring

/-- Pull-direction resolution shared by check_draft_angle and
check_undercuts: None defaults to +Z; a zero-norm vector falls back to +Z
(check_undercuts divides the +Z fallback by the substituted norm 1.0, the
same value); otherwise divide componentwise by the Euclidean norm. -/
def normalizePull (pull : Option Vec3) : Vec3 :=
  match pull with
  | none => (0, 0, 1)
  | some p => if norm3 p = 0 then ((0 : ℝ), 0, 1) else div3 p (norm3 p)

/-- Result record of the draft angle check. -/
structure DraftResult where
  status : Status
  min_draft_angle : ℝ
  num_bad_faces : Nat
  angle_threshold_deg : ℝ
  per_face_draft_angle : List ℝ
  bad_face_mask : List Bool
  bad_vertex_mask : List Bool

/-- Draft angle of one face: draft = abs(90 - degrees(arccos(clip(dot)))). -/
def draftAngle (pd : Vec3) (n : Vec3) : ℝ :=
  |90 - toDeg (Real.arccos (clamp (dot3 n pd)))|

/-- Body of check_draft_angle after the pull direction has been resolved. -/
def draftBody (faces : List Face) (face_normals : List Vec3) (num_vertices : Nat)
    (pd : Vec3) (min_draft_angle_deg : ℝ) : DraftResult :=
  { status :=
      if 0 < face_normals.countP (fun n => decide (draftAngle pd n < min_draft_angle_deg)) then
        .WARNING else .OK
    min_draft_angle :=
      match face_normals.map (draftAngle pd) with
      | [] => 0
      | x :: xs => xs.foldl min x
    num_bad_faces :=
      face_normals.countP (fun n => decide (draftAngle pd n < min_draft_angle_deg))
    angle_threshold_deg := min_draft_angle_deg
    per_face_draft_angle := face_normals.map (draftAngle pd)
    bad_face_mask := face_normals.map (fun n => decide (draftAngle pd n < min_draft_angle_deg))
    bad_vertex_mask :=
      markIndices num_vertices
        (((List.range face_normals.length).filter
            (fun i => (face_normals.map
              (fun n => decide (draftAngle pd n < min_draft_angle_deg))).getD i false)).flatMap
          (fun i => [(faces.getD i (0, 0, 0)).1, (faces.getD i (0, 0, 0)).2.1,
            (faces.getD i (0, 0, 0)).2.2])) }

/-- Model of check_draft_angle: resolve the pull direction, classify each
face by its draft angle against the minimum, mark vertices of bad faces. -/
def check_draft_angle (faces : List Face) (face_normals : List Vec3)
    (num_vertices : Nat) (pull_direction : Option Vec3) (min_draft_angle_deg : ℝ) :
    DraftResult :=
  draftBody faces face_normals num_vertices (normalizePull pull_direction) min_draft_angle_deg

/-- Result record of the undercut check. -/
structure UndercutResult where
  status : Status
  num_undercut_faces : Nat
  angle_threshold_deg : ℝ
  max_undercut_angle_deg : Option ℝ
  bad_face_mask : List Bool
  bad_vertex_mask : List Bool

/-- Body of check_undercuts after the pull direction has been resolved and
the threshold cosine precomputed: the source computes cos_threshold =
np.cos(np.deg2rad(angle_threshold_deg)) once and a face is flagged iff
dot(normal, pull) < cos_threshold. -/
def undercutBodyCos (faces : List Face) (face_normals : List Vec3) (num_vertices : Nat)
    (pd : Vec3) (angle_threshold_deg cos_threshold : ℝ) : UndercutResult :=
  { status :=
      if 0 < face_normals.countP
          (fun n => decide (dot3 n pd < cos_threshold)) then
        .WARNING else .OK
    num_undercut_faces :=
      face_normals.countP (fun n => decide (dot3 n pd < cos_threshold))
    angle_threshold_deg := angle_threshold_deg
    max_undercut_angle_deg :=
      if 0 < face_normals.countP
          (fun n => decide (dot3 n pd < cos_threshold)) then
        some (match (face_normals.filter
            (fun n => decide (dot3 n pd < cos_threshold))).map
            (fun n => toDeg (Real.arccos (clamp (dot3 n pd)))) with
          | [] => 0
          | x :: xs => xs.foldl max x)
      else none
    bad_face_mask :=
      face_normals.map (fun n => decide (dot3 n pd < cos_threshold))
    bad_vertex_mask :=
      markIndices num_vertices
        (((List.range face_normals.length).filter
            (fun i => (face_normals.map
              (fun n => decide (dot3 n pd < cos_threshold))).getD i false)).flatMap
          (fun i => [(faces.getD i (0, 0, 0)).1, (faces.getD i (0, 0, 0)).2.1,
            (faces.getD i (0, 0, 0)).2.2])) }

/-- Exact-real reading of the undercut body: the threshold cosine taken as
the exact cosine of the threshold angle.  At the default 90-degree threshold
this idealization departs from the source's double-precision evaluation,
whose cos_threshold is strictly positive rather than zero; the boundary
behaviour of the floating-point evaluation is modelled separately by
check_undercuts_float_ninety below. -/
def undercutBody (faces : List Face) (face_normals : List Vec3) (num_vertices : Nat)
    (pd : Vec3) (angle_threshold_deg : ℝ) : UndercutResult :=
  undercutBodyCos faces face_normals num_vertices pd angle_threshold_deg
    (Real.cos (toRad angle_threshold_deg))

/-- Model of check_undercuts: resolve the pull direction, precompute the
cosine of the threshold, flag faces with dot below it. -/
def check_undercuts (faces : List Face) (face_normals : List Vec3)
    (num_vertices : Nat) (pull_direction : Option Vec3) (angle_threshold_deg : ℝ) :
    UndercutResult :=
  undercutBody faces face_normals num_vertices (normalizePull pull_direction) angle_threshold_deg

theorem toRad_ninety : toRad 90 = Real.pi / 2 := by
  show (90 : ℝ) * Real.pi / 180 = Real.pi / 2
  ring

/-- Modelled from the source's IEEE-754 double-precision evaluation of
cos_threshold at the default 90-degree threshold: np.deg2rad(90.0) rounds to
the double 1.5707963267948966, strictly below the real pi/2, and np.cos of
it returns the strictly POSITIVE double printed 6.123233995736766e-17, not
zero.  The exact dyadic value of that double differs from this decimal
literal only beyond the digits shown; the only property the comparison below
uses is that the value is strictly positive. -/
def floatCosThresholdNinety : ℝ := 6123233995736766 / 10 ^ 32

/-- The undercut check at the default 90-degree threshold with the
floating-point cos_threshold the source actually compares against, instead
of the exact-real cosine 0. -/
def check_undercuts_float_ninety (faces : List Face) (face_normals : List Vec3)
    (num_vertices : Nat) (pull_direction : Option Vec3) : UndercutResult :=
  undercutBodyCos faces face_normals num_vertices (normalizePull pull_direction) 90
    floatCosThresholdNinety

theorem normalizePull_unitZ : normalizePull (some ((0 : ℝ), 0, 1)) = ((0 : ℝ), 0, 1) := by
  have h1 : norm3 ((0 : ℝ), 0, 1) = 1 := by norm_num [norm3, dot3]
  show (if norm3 ((0 : ℝ), 0, 1) = 0 then ((0 : ℝ), 0, 1)
    else div3 ((0 : ℝ), 0, 1) (norm3 ((0 : ℝ), 0, 1))) = ((0 : ℝ), 0, 1)
  rw [if_neg (by rw [h1]; exact one_ne_zero), h1, div3_one]

/-- Claim C1, code bug: the claim (and Scenario E of the spec, which demands
the boundary be verified precisely at 90 degrees) requires that a face whose
unit normal is exactly perpendicular to the pull direction is NOT flagged at
the default 90-degree threshold.  The source, however, compares dots against
the double np.cos(np.deg2rad(90.0)), which is strictly positive, so the
strict comparison dots < cos_threshold holds at dots = 0 and the program
DOES flag the face: at the failing input (a single face with unit normal
(0, -1, 0) and pull direction +Z) the face mask is true, the undercut count
is 1, and the status is WARNING. -/
theorem undercut_boundary_code_bug :
    dot3 ((0 : ℝ), -1, 0) ((0 : ℝ), (0 : ℝ), (1 : ℝ)) = 0 ∧
    0 < floatCosThresholdNinety ∧
    (check_undercuts_float_ninety [((0 : Nat), 1, 2)] [((0 : ℝ), -1, 0)] 3
      (some ((0 : ℝ), (0 : ℝ), (1 : ℝ)))).bad_face_mask.getD 0 false = true ∧
    (check_undercuts_float_ninety [((0 : Nat), 1, 2)] [((0 : ℝ), -1, 0)] 3
      (some ((0 : ℝ), (0 : ℝ), (1 : ℝ)))).num_undercut_faces = 1 ∧
    (check_undercuts_float_ninety [((0 : Nat), 1, 2)] [((0 : ℝ), -1, 0)] 3
      (some ((0 : ℝ), (0 : ℝ), (1 : ℝ)))).status = .WARNING := by
  have hdot : dot3 ((0 : ℝ), -1, 0) ((0 : ℝ), (0 : ℝ), (1 : ℝ)) = 0 := by
    norm_num [dot3]
  have hpos : (0 : ℝ) < floatCosThresholdNinety := by
    norm_num [floatCosThresholdNinety]
  have hcount : List.countP
      (fun n => decide (dot3 n ((0 : ℝ), 0, 1) < floatCosThresholdNinety))
      [((0 : ℝ), -1, 0)] = 1 := by
    rw [List.countP_cons, show dot3 ((0 : ℝ), -1, 0) ((0 : ℝ), 0, 1) = 0 from by norm_num [dot3]]
    simp [hpos]
  unfold check_undercuts_float_ninety undercutBodyCos
  rw [normalizePull_unitZ]
  refine ⟨hdot, hpos, ?_, ?_, ?_⟩
  · show (List.map (fun n => decide (dot3 n ((0 : ℝ), 0, 1) < floatCosThresholdNinety))
        [((0 : ℝ), -1, 0)]).getD 0 false = true
    rw [List.map_cons, List.map_nil, List.getD_cons_zero,
      show dot3 ((0 : ℝ), -1, 0) ((0 : ℝ), 0, 1) = 0 from by norm_num [dot3]]
    simp [hpos]
  · exact hcount
  · show (if 0 < List.countP
        (fun n => decide (dot3 n ((0 : ℝ), 0, 1) < floatCosThresholdNinety))
        [((0 : ℝ), -1, 0)] then Status.WARNING else Status.OK) = Status.WARNING
    rw [if_pos (by rw [hcount]; norm_num)]

/-- Claim C7: the Draft Analyzer computes per-face draft angle
abs(90 - degrees(arccos(clamp(dot(normal, pull))))), classifies a face bad
iff its draft angle is strictly below the minimum, and warns iff any face is
bad. -/
theorem draft_angle_spec (faces : List Face) (face_normals : List Vec3)
    (num_vertices : Nat) (p : Vec3) (hp : norm3 p = 1) (min_draft : ℝ)
    (r : DraftResult)
    (hr : r = check_draft_angle faces face_normals num_vertices (some p) min_draft) :
    r.per_face_draft_angle =
      face_normals.map (fun n => |90 - toDeg (Real.arccos (clamp (dot3 n p)))|) ∧
    (∀ i, i < face_normals.length →
      (r.bad_face_mask.getD i false = true ↔
        |90 - toDeg (Real.arccos (clamp (dot3 (vget face_normals i) p)))| < min_draft)) ∧
    r.num_bad_faces = face_normals.countP
      (fun n => decide (|90 - toDeg (Real.arccos (clamp (dot3 n p)))| < min_draft)) ∧
    (r.status = .WARNING ↔ 0 < r.num_bad_faces) ∧
    (r.status = .OK ↔ r.num_bad_faces = 0) := by
  have hpd : normalizePull (some p) = p := by
    show (if norm3 p = 0 then ((0 : ℝ), 0, 1) else div3 p (norm3 p)) = p
    rw [if_neg (by rw [hp]; exact one_ne_zero), hp, div3_one]
  subst hr
  unfold check_draft_angle
  rw [hpd]
  unfold draftBody draftAngle
  refine ⟨rfl, ?_, rfl, (ite_status_warning_iff _).1, ?_⟩
  · intro i hi
    rw [getD_map_lt _ _ _ hi _ ((0 : ℝ), (0 : ℝ), (0 : ℝ))]
    simp [vget]
  · show _ ↔ face_normals.countP
      (fun n => decide (|90 - toDeg (Real.arccos (clamp (dot3 n p)))| < min_draft)) = 0
    exact (ite_status_warning_iff _).2.trans (by omega)

/-- Witness for C7, Scenario D: one upward triangle, pull +Z, minimum 2
degrees: draft angle 90, no bad faces, status OK. -/
theorem draft_angle_spec_witness :
    norm3 ((0 : ℝ), (0 : ℝ), (1 : ℝ)) = 1 ∧
    (check_draft_angle [((0 : Nat), 1, 2)] [((0 : ℝ), 0, 1)] 3
      (some ((0 : ℝ), (0 : ℝ), (1 : ℝ))) 2).per_face_draft_angle = [90] ∧
    (check_draft_angle [((0 : Nat), 1, 2)] [((0 : ℝ), 0, 1)] 3
      (some ((0 : ℝ), (0 : ℝ), (1 : ℝ))) 2).num_bad_faces = 0 ∧
    (check_draft_angle [((0 : Nat), 1, 2)] [((0 : ℝ), 0, 1)] 3
      (some ((0 : ℝ), (0 : ℝ), (1 : ℝ))) 2).status = .OK := by
  have hp : norm3 ((0 : ℝ), (0 : ℝ), (1 : ℝ)) = 1 := by
    norm_num [norm3, dot3]
  obtain ⟨h1, h2, h3, h4, h5⟩ :=
    draft_angle_spec [((0 : Nat), 1, 2)] [((0 : ℝ), 0, 1)] 3 ((0 : ℝ), (0 : ℝ), (1 : ℝ)) hp 2 _ rfl
  have hang : |(90 : ℝ) - toDeg (Real.arccos (clamp
      (dot3 ((0 : ℝ), 0, 1) ((0 : ℝ), (0 : ℝ), (1 : ℝ)))))| = 90 := by
    have hd : dot3 ((0 : ℝ), 0, 1) ((0 : ℝ), (0 : ℝ), (1 : ℝ)) = 1 := by norm_num [dot3]
    have hc : clamp 1 = 1 := by norm_num [clamp]
    rw [hd, hc, Real.arccos_one, show toDeg 0 = 0 by simp [toDeg]]
    norm_num
  have hnum : (check_draft_angle [((0 : Nat), 1, 2)] [((0 : ℝ), 0, 1)] 3
      (some ((0 : ℝ), (0 : ℝ), (1 : ℝ))) 2).num_bad_faces = 0 := by
    rw [h3]
    simp only [List.countP_cons, List.countP_nil, hang]
    norm_num
  refine ⟨hp, ?_, hnum, h5.mpr hnum⟩
  rw [h1]
  simp [hang]

/-- Claim C10: both the draft and the undercut check depend on the pull
direction only through its normalization, so any positive rescaling of a
nonzero pull direction leaves both results unchanged, and both None and the
exact zero vector are substituted by the +Z direction. -/
theorem pull_direction_invariance (faces : List Face) (face_normals : List Vec3)
    (num_vertices : Nat) (c : ℝ) (p : Vec3) (hc : 0 < c) (hp : p ≠ ((0 : ℝ), 0, 0))
    (d θ : ℝ) :
    check_draft_angle faces face_normals num_vertices (some (smul3 c p)) d =
      check_draft_angle faces face_normals num_vertices (some p) d ∧
    check_undercuts faces face_normals num_vertices (some (smul3 c p)) θ =
      check_undercuts faces face_normals num_vertices (some p) θ ∧
    check_draft_angle faces face_normals num_vertices none d =
      check_draft_angle faces face_normals num_vertices (some ((0 : ℝ), 0, 1)) d ∧
    check_undercuts faces face_normals num_vertices none θ =
      check_undercuts faces face_normals num_vertices (some ((0 : ℝ), 0, 1)) θ ∧
    check_draft_angle faces face_normals num_vertices (some ((0 : ℝ), 0, 0)) d =
      check_draft_angle faces face_normals num_vertices (some ((0 : ℝ), 0, 1)) d ∧
    check_undercuts faces face_normals num_vertices (some ((0 : ℝ), 0, 0)) θ =
      check_undercuts faces face_normals num_vertices (some ((0 : ℝ), 0, 1)) θ := by
  have hn : norm3 p ≠ 0 := fun h => hp ((norm3_eq_zero_iff p).mp h)
  have hsmul : normalizePull (some (smul3 c p)) = normalizePull (some p) := by
    have hns : norm3 (smul3 c p) = c * norm3 p := norm3_smul c hc.le p
    show (if norm3 (smul3 c p) = 0 then ((0 : ℝ), 0, 1) else div3 (smul3 c p) (norm3 (smul3 c p))) =
      (if norm3 p = 0 then ((0 : ℝ), 0, 1) else div3 p (norm3 p))
    rw [if_neg (by rw [hns]; exact mul_ne_zero (ne_of_gt hc) hn), if_neg hn, hns]
    obtain ⟨x, y, z⟩ := p
    simp only [div3, smul3, Prod.ext_iff]
    exact ⟨mul_div_mul_left _ _ (ne_of_gt hc),
      mul_div_mul_left _ _ (ne_of_gt hc), mul_div_mul_left _ _ (ne_of_gt hc)⟩
  have hz1 : normalizePull (some ((0 : ℝ), 0, 1)) = ((0 : ℝ), 0, 1) := by
    have h1 : norm3 ((0 : ℝ), 0, 1) = 1 := by norm_num [norm3, dot3]
    show (if norm3 ((0 : ℝ), 0, 1) = 0 then ((0 : ℝ), 0, 1)
      else div3 ((0 : ℝ), 0, 1) (norm3 ((0 : ℝ), 0, 1))) = ((0 : ℝ), 0, 1)
    rw [if_neg (by rw [h1]; exact one_ne_zero), h1, div3_one]
  have hz0 : normalizePull (some ((0 : ℝ), 0, 0)) = ((0 : ℝ), 0, 1) := by
    show (if norm3 ((0 : ℝ), 0, 0) = 0 then ((0 : ℝ), 0, 1)
      else div3 ((0 : ℝ), 0, 0) (norm3 ((0 : ℝ), 0, 0))) = ((0 : ℝ), 0, 1)
    rw [if_pos ((norm3_eq_zero_iff _).mpr rfl)]
  have hnone : normalizePull (none : Option Vec3) = ((0 : ℝ), 0, 1) := rfl
  unfold check_draft_angle check_undercuts
  rw [hsmul, hz1, hz0, hnone]
  exact ⟨rfl, rfl, rfl, rfl, rfl, rfl⟩

/-- Witness for C10 at c = 2 and pull direction +Z. -/
theorem pull_direction_invariance_witness :
    (0 : ℝ) < 2 ∧ ((0 : ℝ), (0 : ℝ), (1 : ℝ)) ≠ (((0 : ℝ), (0 : ℝ), (0 : ℝ)) : Vec3) ∧
    check_draft_angle [] [] 0 (some (smul3 2 ((0 : ℝ), (0 : ℝ), (1 : ℝ)))) 2 =
      check_draft_angle [] [] 0 (some ((0 : ℝ), (0 : ℝ), (1 : ℝ))) 2 := by
  have hp : ((0 : ℝ), (0 : ℝ), (1 : ℝ)) ≠ (((0 : ℝ), (0 : ℝ), (0 : ℝ)) : Vec3) := by
    simp [Prod.ext_iff]
  exact ⟨by norm_num, hp,
    (pull_direction_invariance [] [] 0 2 ((0 : ℝ), (0 : ℝ), (1 : ℝ)) (by norm_num) hp 2 90).1⟩

/-- Cross product of the two edge vectors of a face, the quantity whose
normalization is the face normal in compute_face_normals. -/
def faceCross (vertices : List Vec3) (f : Face) : Vec3 :=
  cross3 (sub3 (vget vertices f.2.1) (vget vertices f.1))
         (sub3 (vget vertices f.2.2) (vget vertices f.1))

/-- Model of compute_face_normals: per-face safe-normalized cross product and
per-face area 0.5 * cross length. -/
def compute_face_normals (vertices : List Vec3) (faces : List Face) :
    List Vec3 × List ℝ :=
  (faces.map (fun f => normalizeGuard (faceCross vertices f)),
   faces.map (fun f => 0.5 * norm3 (faceCross vertices f)))

/-- Model of compute_vertex_normals: accumulate area-weighted face normals
into the three vertices of each face, then safe-normalize per vertex. -/
def compute_vertex_normals (vertices : List Vec3) (faces : List Face)
    (face_normals : List Vec3) (face_areas : List ℝ) : List Vec3 :=
  let raw := (faces.enum).foldl
    (fun acc p =>
      let w := face_areas.getD p.1 0
      let n := smul3 w (vget face_normals p.1)
      let acc1 := acc.set p.2.1 (add3 (vget acc p.2.1) n)
      let acc2 := acc1.set p.2.2.1 (add3 (vget acc1 p.2.2.1) n)
      acc2.set p.2.2.2 (add3 (vget acc2 p.2.2.2) n))
    (List.replicate vertices.length ((0 : ℝ), (0 : ℝ), (0 : ℝ)))
  raw.map normalizeGuard

theorem vertex_accum_length (vertices : List Vec3) (faces : List Face)
    (face_normals : List Vec3) (face_areas : List ℝ) :
    ((faces.enum).foldl
      (fun acc p =>
        let w := face_areas.getD p.1 0
        let n := smul3 w (vget face_normals p.1)
        let acc1 := acc.set p.2.1 (add3 (vget acc p.2.1) n)
        let acc2 := acc1.set p.2.2.1 (add3 (vget acc1 p.2.2.1) n)
        acc2.set p.2.2.2 (add3 (vget acc2 p.2.2.2) n))
      (List.replicate vertices.length ((0 : ℝ), (0 : ℝ), (0 : ℝ)))).length
      = vertices.length := by
  generalize hl : faces.enum = l
  generalize hacc : List.replicate vertices.length ((0 : ℝ), (0 : ℝ), (0 : ℝ)) = acc0
  have hlen : acc0.length = vertices.length := by rw [← hacc]; simp
  clear hacc hl
  induction l generalizing acc0 with
  | nil => simpa using hlen
  | cons p t ih =>
    simp only [List.foldl_cons]
    exact ih _ (by simp [hlen])

/-- Claim C8: every face normal produced by compute_face_normals has unit
length or is exactly the zero vector, every face area is nonnegative, and
every vertex normal produced by compute_vertex_normals has unit length or is
exactly the zero vector, even when incident faces are degenerate or a vertex
belongs to no face.  (NaN cannot arise in the exact-real model because the
zero-length guard makes every division well defined.) -/
theorem normal_engine_unit_or_zero (vertices : List Vec3) (faces : List Face)
    (face_normals : List Vec3) (face_areas : List ℝ) :
    (∀ i, i < faces.length →
      (norm3 ((compute_face_normals vertices faces).1.getD i (0, 0, 0)) = 1 ∨
        (compute_face_normals vertices faces).1.getD i (0, 0, 0) = ((0 : ℝ), 0, 0)) ∧
      0 ≤ (compute_face_normals vertices faces).2.getD i 0) ∧
    (∀ j, j < vertices.length →
      (norm3 ((compute_vertex_normals vertices faces face_normals face_areas).getD j (0, 0, 0)) = 1 ∨
        (compute_vertex_normals vertices faces face_normals face_areas).getD j (0, 0, 0) = ((0 : ℝ), 0, 0))) := by
  constructor
  · intro i hi
    constructor
    · rw [show (compute_face_normals vertices faces).1 =
          faces.map (fun f => normalizeGuard (faceCross vertices f)) from rfl,
        getD_map_lt _ _ _ hi _ ((0, 0, 0) : Face)]
      exact normalizeGuard_unit_or_zero _
    · rw [show (compute_face_normals vertices faces).2 =
          faces.map (fun f => 0.5 * norm3 (faceCross vertices f)) from rfl,
        getD_map_lt _ _ _ hi _ ((0, 0, 0) : Face)]
      show 0 ≤ 0.5 * norm3 (faceCross vertices (faces.getD i (0, 0, 0)))
      have h0 := norm3_nonneg (faceCross vertices (faces.getD i (0, 0, 0)))
      linarith
  · intro j hj
    unfold compute_vertex_normals
    rw [getD_map_lt _ _ _ (by rw [vertex_accum_length]; exact hj) _ ((0 : ℝ), (0 : ℝ), (0 : ℝ))]
    exact normalizeGuard_unit_or_zero _

def MIN_GLOBAL_THICKNESS : ℝ := 1/2

def LOCAL_MIN_THICKNESS : ℝ := 4/5

def SHARP_ANGLE_THRESHOLD_DEG : ℝ := 60

def DRAFT_MIN_ANGLE_DEG : ℝ := 2

def DEFAULT_UNDERCUT_ANGLE_DEG : ℝ := 90

def DEFAULT_RIB_BOSS_FACTOR : ℝ := 3/2

/-- Result record of the engine-level global thickness check. -/
structure GlobalThicknessResult where
  status : Status
  smallest_dimension : ℝ
  min_allowed : ℝ

/-- The aggregate report of run_all_checks: mesh-level facts plus one result
per check.  Every field is always present, so an ok value is by construction
a complete, non-partial report. -/
structure Report where
  triangles : Nat
  bbox_min : Vec3
  bbox_max : Vec3
  extents : Vec3
  global_thickness : GlobalThicknessResult
  local_thickness : ThicknessResult
  rib_boss : RibBossResult
  sharp_corners : SharpResult
  draft_angle : DraftResult
  undercuts : UndercutResult

def vmin3 (a b : Vec3) : Vec3 := (min a.1 b.1, min a.2.1 b.2.1, min a.2.2 b.2.2)

def vmax3 (a b : Vec3) : Vec3 := (max a.1 b.1, max a.2.1 b.2.1, max a.2.2 b.2.2)

/-- Componentwise minimum of the vertex array, modelling
vertices.min(axis=0) on a nonempty array (run_all_checks errors on an empty
one before this value is used). -/
def bboxMin (vertices : List Vec3) : Vec3 :=
  match vertices with
  | [] => (0, 0, 0)
  | v0 :: rest => rest.foldl vmin3 v0

/-- Componentwise maximum, modelling vertices.max(axis=0). -/
def bboxMax (vertices : List Vec3) : Vec3 :=
  match vertices with
  | [] => (0, 0, 0)
  | v0 :: rest => rest.foldl vmax3 v0

/-- Whether every face index is inside the vertex array, the condition under
which numpy fancy indexing vertices[faces] in compute_face_normals does not
raise IndexError. -/
def facesInRange (vertices : List Vec3) (faces : List Face) : Bool :=
  faces.all (fun f => decide (f.1 < vertices.length) &&
    (decide (f.2.1 < vertices.length) && decide (f.2.2 < vertices.length)))

/-- The report built by the body of run_all_checks, with the engine's
default thresholds for the checks whose thresholds it does not thread. -/
def buildReport (vertices : List Vec3) (faces : List Face)
    (min_global_thickness min_local_thickness : ℝ) (pull_direction : Option Vec3) :
    Report :=
  { triangles := faces.length
    bbox_min := bboxMin vertices
    bbox_max := bboxMax vertices
    extents := sub3 (bboxMax vertices) (bboxMin vertices)
    global_thickness :=
      { status :=
          if minExtent (sub3 (bboxMax vertices) (bboxMin vertices)) < min_global_thickness then
            .WARNING else .OK
        smallest_dimension := minExtent (sub3 (bboxMax vertices) (bboxMin vertices))
        min_allowed := min_global_thickness }
    local_thickness :=
      check_local_wall_thickness vertices faces
        (compute_vertex_normals vertices faces (compute_face_normals vertices faces).1
          (compute_face_normals vertices faces).2)
        (sub3 (bboxMax vertices) (bboxMin vertices)) min_local_thickness
    rib_boss :=
      check_rib_boss_thickness
        (check_local_wall_thickness vertices faces
          (compute_vertex_normals vertices faces (compute_face_normals vertices faces).1
            (compute_face_normals vertices faces).2)
          (sub3 (bboxMax vertices) (bboxMin vertices)) min_local_thickness).per_vertex_thickness
        none DEFAULT_RIB_BOSS_FACTOR
    sharp_corners :=
      check_sharp_corners faces (compute_face_normals vertices faces).1 vertices.length
        SHARP_ANGLE_THRESHOLD_DEG
    draft_angle :=
      check_draft_angle faces (compute_face_normals vertices faces).1 vertices.length
        pull_direction DRAFT_MIN_ANGLE_DEG
    undercuts :=
      check_undercuts faces (compute_face_normals vertices faces).1 vertices.length
        pull_direction DEFAULT_UNDERCUT_ANGLE_DEG }

/-- Model of run_all_checks.  The source performs no explicit validation;
its two failure points on finite inputs are numpy's ValueError from
vertices.min(axis=0) on an empty vertex array (raised before any check) and
numpy's IndexError from the fancy indexing vertices[faces] inside
compute_face_normals when a face index is out of range (also raised before
any check result exists).  Both are modelled as Except.error guards; in
every other case the pipeline runs to completion and returns a complete
report. -/
def run_all_checks (vertices : List Vec3) (faces : List Face)
    (min_global_thickness min_local_thickness : ℝ) (pull_direction : Option Vec3) :
    Except String Report :=
  if vertices = [] then
    Except.error "zero-size array to reduction operation minimum which has no identity"
  else if facesInRange vertices faces = true then
    Except.ok (buildReport vertices faces min_global_thickness min_local_thickness pull_direction)
  else
    Except.error "index out of bounds in vertices[faces]"

/-- Counterexample to C2 as stated: a one-vertex mesh with an EMPTY face
array is not rejected; run_all_checks returns a complete report (ok), not a
hard error, because the source validates nothing and every numpy operation
involved is total on an empty face array. -/
theorem run_all_checks_empty_faces_ok :
    run_all_checks [((0 : ℝ), 0, 0)] [] MIN_GLOBAL_THICKNESS LOCAL_MIN_THICKNESS none =
      Except.ok (buildReport [((0 : ℝ), 0, 0)] [] MIN_GLOBAL_THICKNESS LOCAL_MIN_THICKNESS none) := by
  unfold run_all_checks
  rw [if_neg (by simp),
    if_pos (show facesInRange [((0 : ℝ), 0, 0)] [] = true from rfl)]

/-- Claim C2 amended: run_all_checks fails with a hard error, producing no
report at all, iff the vertex array is empty or some face index is out of
range; an empty face array with nonempty vertices is NOT an error and yields
a complete report (the ok payload is a full Report record by construction). -/
theorem run_all_checks_error_iff (vertices : List Vec3) (faces : List Face)
    (g l : ℝ) (pull : Option Vec3) :
    (∃ e, run_all_checks vertices faces g l pull = Except.error e) ↔
      (vertices = [] ∨ ∃ f ∈ faces,
        ¬ (f.1 < vertices.length ∧ f.2.1 < vertices.length ∧ f.2.2 < vertices.length)) := by
  have hchar : facesInRange vertices faces = true ↔
      ∀ f ∈ faces, f.1 < vertices.length ∧ f.2.1 < vertices.length ∧ f.2.2 < vertices.length := by
    simp [facesInRange]
  unfold run_all_checks
  by_cases hv : vertices = []
  · rw [if_pos hv]
    simp [hv]
  · rw [if_neg hv]
    by_cases hf : facesInRange vertices faces = true
    · rw [if_pos hf]
      constructor
      · rintro ⟨e, he⟩
        exact absurd he (by simp)
      · rintro (hnil | ⟨f, hmem, hnot⟩)
        · exact absurd hnil hv
        · exact absurd (hchar.mp hf f hmem) hnot
    · rw [if_neg hf]
      constructor
      · intro _
        right
        have hnall := mt hchar.mpr hf
        push_neg at hnall
        obtain ⟨f, hmem, hnot⟩ := hnall
        refine ⟨f, hmem, ?_⟩
        rintro ⟨h1, h2, h3⟩
        exact absurd h3 (Nat.not_lt.mpr (hnot h1 h2))
      · intro _
        exact ⟨_, rfl⟩

/-- Witness for the amended C2: the empty-vertex case errors. -/
theorem run_all_checks_error_iff_witness :
    ∃ e, run_all_checks [] [] MIN_GLOBAL_THICKNESS LOCAL_MIN_THICKNESS none = Except.error e :=
  (run_all_checks_error_iff [] [] MIN_GLOBAL_THICKNESS LOCAL_MIN_THICKNESS none).mpr (Or.inl rfl)

/-- Witness for C8 at a concrete one-triangle mesh. -/
theorem normal_engine_unit_or_zero_witness :
    0 < 1 ∧
      ((norm3 ((compute_face_normals [((0 : ℝ), 0, 0), (1, 0, 0), (0, 1, 0)] [(0, 1, 2)]).1.getD 0 (0, 0, 0)) = 1 ∨
        (compute_face_normals [((0 : ℝ), 0, 0), (1, 0, 0), (0, 1, 0)] [(0, 1, 2)]).1.getD 0 (0, 0, 0) = ((0 : ℝ), 0, 0)) ∧
      0 ≤ (compute_face_normals [((0 : ℝ), 0, 0), (1, 0, 0), (0, 1, 0)] [(0, 1, 2)]).2.getD 0 0) :=
  ⟨by norm_num,
   (normal_engine_unit_or_zero [((0 : ℝ), 0, 0), (1, 0, 0), (0, 1, 0)] [(0, 1, 2)] [] []).1 0 (by norm_num)⟩

end
